import Mathlib

/-!
Verification of the netcode.io server core (`src/rust/src/server/mod.rs`)
against its natural-language specification.

The server module is shallowly embedded below.  Modelling choices:

* `f64` wall/monotonic time is modelled as `Rat` (exact arithmetic; none of
  the verified properties depends on floating-point rounding).
* `u64` counters (`send_sequence`, `challenge_sequence`) are modelled as
  `Nat` reduced modulo `U64 = 2 ^ 64` at every increment, matching wrapping
  machine arithmetic.
* The packet codec, the token module and the cryptographic primitives are
  external collaborators (out of scope per the specification).  They are
  modelled as oracle functions gathered in an `Env` record: `decode` stands
  for `packet::decode`, `private_decode` for `token::PrivateData::decode`,
  `response_decode` for `ResponsePacket::decode` (challenge-token
  unsealing), and `get_time_now` for `token::get_time_now()`.  Encoding
  (`packet::encode`, `ChallengePacket::generate`) is modelled as total: an
  encoded packet is represented by the record of the arguments handed to
  the encoder (destination address, sealing key, sequence, logical packet).
* Socket sends are modelled by returning the list of packets handed to
  `send_to`; socket receives by a stream of `RecvResult`s.
* `SocketAddr` and 32-byte keys are modelled as abstract `Nat` values; only
  equality on them is ever used by the server core.
-/

namespace Netcode


/-- The modulus `2 ^ 64` of the `u64` counters. -/
def U64 : Nat := 2 ^ 64

/-- Modelled from the spec: `NETCODE_TIMEOUT_SECONDS` lives in the `common`
module, which is not under `src/`; the spec gives the inactivity timeout as
5 seconds.  No claim depends on the numeric value. -/
def NETCODE_TIMEOUT_SECONDS : Rat := 5

/-- The constant `RETRY_TIMEOUT` from `server/mod.rs` (1.0 seconds). -/
def RETRY_TIMEOUT : Rat := 1

/-- Modelled from the spec: `NETCODE_VERSION_STRING` lives in the `common`
module, which is not under `src/`.  Only byte-for-byte equality with the
version tag of an incoming request is ever used, so the fixed byte string
is abstracted to a `Nat` tag. -/
def NETCODE_VERSION_STRING : Nat := 0

/-- Modelled from the spec: retry record of `server/connection.rs` (not
under `src/`): `{ last_update, last_retry, retry_count }` in seconds. -/
structure RetryState where
  last_update : Rat
  last_retry : Rat
  retry_count : Nat
deriving DecidableEq

/-- Modelled from the spec: `RetryState::new(time)` starts a fresh retry
record at the given time with no retransmission recorded yet (the code in
`server/mod.rs` recognises the first tick by
`last_retry == 0.0 && retry_count == 0`). -/
def RetryState.new (time : Rat) : RetryState :=
  { last_update := time, last_retry := 0, retry_count := 0 }

/-- Modelled from the spec: the per-connection state of
`server/connection.rs` (not under `src/`), exactly the five variants
matched on by `server/mod.rs`. -/
inductive ConnectionState where
  | PendingResponse (retry : RetryState)
  | Connected
  | Idle (retry : RetryState)
  | Disconnected
  | TimedOut
deriving DecidableEq

/-- Modelled from the spec: the `Connection` record of
`server/connection.rs` (not under `src/`), with exactly the fields
`server/mod.rs` reads and writes. -/
structure Connection where
  client_id : Nat
  state : ConnectionState
  server_to_client_key : Nat
  client_to_server_key : Nat
  addr : Nat
deriving DecidableEq

/-- Embeds `packet::ConnectionRequestPacket`, as consumed by the server core. -/
structure ConnectionRequestPacket where
  version : Nat
  protocol_id : Nat
  token_expire : Nat
  sequence : Nat
  private_data : List Nat
deriving DecidableEq

/-- Embeds `packet::ChallengePacket`.  The codec is abstract, so a generated
challenge is represented by the record of its generation inputs. -/
structure ChallengePacket where
  client_id : Nat
  user_data : List Nat
  sequence : Nat
  key : Nat
deriving DecidableEq

/-- Embeds `packet::ChallengePacket::generate` (modelled as total; see header). -/
def ChallengePacket.generate (client_id : Nat) (user_data : List Nat)
    (sequence : Nat) (key : Nat) : ChallengePacket :=
  { client_id := client_id, user_data := user_data, sequence := sequence, key := key }

/-- Embeds `packet::ResponsePacket`. -/
structure ResponsePacket where
  token_sequence : Nat
  token_data : List Nat
deriving DecidableEq

/-- The challenge token recovered by unsealing a response. -/
structure ChallengeToken where
  client_id : Nat
  user_data : List Nat
deriving DecidableEq

/-- The logical packet variants of the `packet` module. -/
inductive Packet where
  | ConnectionRequest (req : ConnectionRequestPacket)
  | ConnectionDenied
  | Challenge (c : ChallengePacket)
  | Response (resp : ResponsePacket)
  | KeepAlive (n : Nat)
  | Payload (len : Nat)
  | Disconnect
deriving DecidableEq

/-- Embeds `token::PrivateData`: the unsealed private portion of a connect token. -/
structure PrivateData where
  client_id : Nat
  server_to_client_key : Nat
  client_to_server_key : Nat
  user_data : List Nat
deriving DecidableEq

/-- Embeds `ServerEvent` from `server/mod.rs`. -/
inductive ServerEvent where
  | ClientConnect (id : Nat)
  | ClientDisconnect (id : Nat)
  | ClientSlotFull
  | Packet (id : Nat) (len : Nat)
deriving DecidableEq

/-- Embeds `SendError` from `server/mod.rs` (io payloads abstracted away). -/
inductive SendError where
  | InvalidClientId
  | PacketEncodeError
  | SocketError
deriving DecidableEq

/-- Embeds `UpdateError` from `server/mod.rs` (io payloads abstracted away;
`Internal` carries `InternalError::ChallengeEncodeError`). -/
inductive UpdateError where
  | PacketBufferTooSmall
  | SocketError
  | SendError (e : SendError)
  | Internal
deriving DecidableEq

/-- Oracles for the external collaborators; see the module header.
`decode data protocol_id key` is `packet::decode`; `private_decode data
protocol_id expire sequence key` is `token::PrivateData::decode`;
`response_decode resp key` is `ResponsePacket::decode` (challenge-token
unsealing, whose failure the source propagates with `?`); `get_time_now`
is `token::get_time_now()`. -/
structure Env where
  decode : List Nat → Nat → Option Nat → Option Packet
  private_decode : List Nat → Nat → Nat → Nat → Nat → Option PrivateData
  response_decode : ResponsePacket → Nat → Except Unit ChallengeToken
  get_time_now : Nat

/-- The `Server` state (socket handle omitted; sends are returned as data). -/
structure Server where
  protocol_id : Nat
  connect_key : Nat
  clients : List (Option Connection)
  time : Rat
  send_sequence : Nat
  challenge_sequence : Nat
  challenge_key : Nat
  client_event_idx : Nat
deriving DecidableEq

/-- Embeds `Server::new`: empty client table of `max_clients` slots, counters at
zero, time at zero. -/
def Server.new (protocol_id : Nat) (max_clients : Nat)
    (connect_key : Nat) (challenge_key : Nat) : Server :=
  { protocol_id := protocol_id
    connect_key := connect_key
    clients := List.replicate max_clients none
    time := 0
    send_sequence := 0
    challenge_sequence := 0
    challenge_key := challenge_key
    client_event_idx := 0 }

/-- A packet handed to `send_to`: destination, sealing key, nonce used by
the encoder, and the logical packet. -/
structure SentPacket where
  addr : Nat
  key : Nat
  sequence : Nat
  packet : Packet
deriving DecidableEq

/-- Embeds `Iterator::position` on a list: index of the first element satisfying
the predicate. -/
def position (p : α → Bool) : List α → Option Nat
  | [] => none
  | x :: xs => if p x then some 0 else (position p xs).map (· + 1)

/-- Embeds `Server::find_client_by_id`. -/
def find_client_by_id (clients : List (Option Connection)) (id : Nat) : Option Nat :=
  position (fun v => match v with | some c => c.client_id == id | none => false) clients

/-- Embeds `Server::find_client_by_addr`. -/
def find_client_by_addr (clients : List (Option Connection)) (addr : Nat) : Option Nat :=
  position (fun v => match v with | some c => c.addr == addr | none => false) clients

/-- Embeds `Server::update`: advances `time` by `elapsed` and returns `Ok(())`.
The `block_duration` argument is unused by the source. -/
def update (s : Server) (elapsed : Rat) (block_duration : Rat) :
    Server × Except Unit Unit :=
  let _ := block_duration
  ({ s with time := s.time + elapsed }, .ok ())

/-- Embeds `Server::send_packet`: increments `send_sequence` first, then looks the
client up by id; on success the packet is encoded under
`(send_sequence, server_to_client_key)` and sent to the client address. -/
def send_packet (s : Server) (client_id : Nat) (p : Packet) :
    Server × Except SendError SentPacket :=
  let s1 := { s with send_sequence := (s.send_sequence + 1) % U64 }
  match find_client_by_id s1.clients client_id with
  | some idx =>
    match s1.clients[idx]? with
    | some (some client) =>
      (s1, .ok { addr := client.addr, key := client.server_to_client_key,
                 sequence := s1.send_sequence, packet := p })
    | _ => (s1, .error .InvalidClientId)
  | none => (s1, .error .InvalidClientId)

/-- Embeds `Server::send_denied_packet`: increments `send_sequence`, encodes a
`ConnectionDenied` under `(send_sequence, key)` and sends it to `addr`. -/
def send_denied_packet (s : Server) (addr : Nat) (key : Nat) :
    Server × SentPacket :=
  let s1 := { s with send_sequence := (s.send_sequence + 1) % U64 }
  (s1, { addr := addr, key := key, sequence := s1.send_sequence,
         packet := .ConnectionDenied })

/-- Embeds `Server::validate_client_token`: decode with no key, demand a
`ConnectionRequest`, check the version tag, reject stale tokens
(`now > token_expire`), then unseal the private data. -/
def validate_client_token (env : Env) (protocol_id : Nat) (private_key : Nat)
    (packet : List Nat) : Option PrivateData :=
  match env.decode packet protocol_id none with
  | some (.ConnectionRequest req) =>
    if req.version ≠ NETCODE_VERSION_STRING then
      none
    else if env.get_time_now > req.token_expire then
      none
    else
      match env.private_decode req.private_data protocol_id req.token_expire
          req.sequence private_key with
      | some v => some v
      | none => none
  | some _ => none
  | none => none

/-- Result of `Server::handle_packet`: the mutated connection, the returned
value, and the bytes copied into the front of the caller `out_packet`
buffer by the server core itself (the `user_data` copy on the response
path; writes performed inside the codec are out of scope). -/
structure HandlePacketResult where
  conn : Connection
  result : Except UpdateError (Option ServerEvent)
  out_user_data : Option (List Nat)

/-- Embeds `Server::handle_packet`.  An early return that leaves `client.state`
untouched is modelled by yielding the current state. -/
def handle_packet (env : Env) (time : Rat) (protocol_id : Nat)
    (challenge_key : Nat) (client : Connection) (packet : List Nat) :
    HandlePacketResult :=
  if packet.length = 0 then
    { conn := client, result := .ok none, out_user_data := none }
  else
    match env.decode packet protocol_id (some client.client_to_server_key) with
    | none =>
      { conn := { client with state := .Disconnected }
        result := .ok (some (.ClientDisconnect client.client_id))
        out_user_data := none }
    | some decoded =>
      let step : ConnectionState × Except UpdateError (Option ServerEvent) ×
          Option (List Nat) :=
        match client.state with
        | .Connected | .Idle _ =>
          match decoded with
          | .Payload len =>
            (.Idle (RetryState.new time),
             .ok (some (.Packet client.client_id len)), none)
          | .KeepAlive _ =>
            (.Idle (RetryState.new time), .ok none, none)
          | .Disconnect =>
            (.Disconnected, .ok (some (.ClientDisconnect client.client_id)), none)
          | _ =>
            (.Disconnected, .ok (some (.ClientDisconnect client.client_id)), none)
        | .PendingResponse _ =>
          match decoded with
          | .Response resp =>
            match env.response_decode resp challenge_key with
            | .error _ =>
              -- the source propagates the unseal failure with `?` before
              -- `client.state = new_state` runs, so the state is unchanged
              (client.state, .error .Internal, none)
            | .ok token =>
              (.Idle (RetryState.new time),
               .ok (some (.ClientConnect token.client_id)),
               some token.user_data)
          | _ =>
            (.Disconnected, .ok (some (.ClientDisconnect client.client_id)), none)
        | s => (s, .ok none, none)
      { conn := { client with state := step.1 }
        result := step.2.1
        out_user_data := step.2.2 }

/-- Result of one server-level datagram/admission operation. -/
structure StepOut where
  server : Server
  result : Except UpdateError (Option ServerEvent)
  sent : List SentPacket
  out_user_data : Option (List Nat)

/-- The tail of `Server::handle_client_connect` shared by the existing-id
and fresh-insert branches: bump `challenge_sequence`, generate a challenge
token, and send it through `send_packet` (send failures propagated). -/
def issue_challenge (s : Server) (pd : PrivateData) : StepOut :=
  let s1 := { s with challenge_sequence := (s.challenge_sequence + 1) % U64 }
  let challenge := ChallengePacket.generate pd.client_id pd.user_data
      s1.challenge_sequence s1.challenge_key
  let r := send_packet s1 pd.client_id (.Challenge challenge)
  match r.2 with
  | .ok pkt =>
    { server := r.1, result := .ok (some (.ClientConnect pd.client_id))
      sent := [pkt], out_user_data := none }
  | .error e =>
    { server := r.1, result := .error (.SendError e)
      sent := [], out_user_data := none }

/-- Embeds `Server::handle_client_connect`. -/
def handle_client_connect (env : Env) (s : Server) (addr : Nat)
    (data : List Nat) : StepOut :=
  match validate_client_token env s.protocol_id s.connect_key data with
  | none => { server := s, result := .ok none, sent := [], out_user_data := none }
  | some private_data =>
    match find_client_by_id s.clients private_data.client_id with
    | some idx =>
      -- retransmission path: reset the retry pacing of a pending slot
      let clients1 :=
        match s.clients[idx]? with
        | some (some c) =>
          match c.state with
          | .PendingResponse rs =>
            s.clients.set idx
              (some { c with
                      state := .PendingResponse ⟨rs.last_update, 0, rs.retry_count + 1⟩ })
          | _ => s.clients
        | _ => s.clients
      issue_challenge { s with clients := clients1 } private_data
    | none =>
      match position (fun v => v.isNone) s.clients with
      | some idx =>
        let conn : Connection :=
          { client_id := private_data.client_id
            state := .PendingResponse (RetryState.new s.time)
            server_to_client_key := private_data.server_to_client_key
            client_to_server_key := private_data.client_to_server_key
            addr := addr }
        issue_challenge { s with clients := s.clients.set idx (some conn) }
          private_data
      | none =>
        let r := send_denied_packet s addr private_data.server_to_client_key
        { server := r.1, result := .ok (some .ClientSlotFull)
          sent := [r.2], out_user_data := none }

/-- Embeds `Server::handle_io`: route by source address. -/
def handle_io (env : Env) (s : Server) (addr : Nat) (data : List Nat) : StepOut :=
  match find_client_by_addr s.clients addr with
  | none => handle_client_connect env s addr data
  | some idx =>
    match s.clients[idx]? with
    | some (some client) =>
      let r := handle_packet env s.time s.protocol_id s.challenge_key client data
      { server := { s with clients := s.clients.set idx (some r.conn) }
        result := r.result, sent := [], out_user_data := r.out_user_data }
    | _ => { server := s, result := .ok none, sent := [], out_user_data := none }

/-- Embeds `Server::process_timeout` (both call sites pass a no-op `send_func`):
returns `false` when the inactivity bound has elapsed; otherwise may reset
`last_retry` and returns `true`. -/
def process_timeout (time : Rat) (state : RetryState) : RetryState × Bool :=
  if state.last_update + NETCODE_TIMEOUT_SECONDS ≤ time then
    (state, false)
  else if state.last_retry > RETRY_TIMEOUT ∨
      (state.last_retry = 0 ∧ state.retry_count = 0) then
    ({ state with last_retry := 0 }, true)
  else
    (state, true)

/-- Embeds `Server::tick_client`.  Note the source shadows `client_id` with a
local `let client_id = 0;`, which is kept verbatim here. -/
def tick_client (time : Rat) (client : Connection) :
    Connection × (Bool × Option (Except UpdateError ServerEvent)) :=
  let client_id := 0
  let step : ConnectionState × (Bool × Option (Except UpdateError ServerEvent)) :=
    match client.state with
    | .PendingResponse rs =>
      let pr := process_timeout time rs
      if pr.2 then (.PendingResponse pr.1, (false, none))
      else (.TimedOut, (true, none))
    | .Idle rs =>
      let pr := process_timeout time rs
      if pr.2 then (.Idle pr.1, (false, none))
      else (.TimedOut, (false, some (.ok (.ClientDisconnect client_id))))
    | .Connected => (.Idle (RetryState.new time), (false, none))
    | .TimedOut => (.TimedOut, (true, none))
    | .Disconnected => (.Disconnected, (true, none))
  ({ client with state := step.1 }, step.2)

/-- One iteration of the timer phase of `next_event`: tick the slot at
`client_event_idx`, clear it when the tick demands removal, and advance the
cursor. -/
def tick_step (s : Server) : Server :=
  if s.client_event_idx < s.clients.length then
    let idx := s.client_event_idx
    match s.clients[idx]? with
    | some (some c) =>
      let r := tick_client s.time c
      let clients1 :=
        if r.2.1 then s.clients.set idx none else s.clients.set idx (some r.1)
      { s with clients := clients1, client_event_idx := idx + 1 }
    | _ => { s with client_event_idx := idx + 1 }
  else s

/-- Result of one `recv_from` call on the non-blocking socket. -/
inductive RecvResult where
  | ok (addr : Nat) (data : List Nat)
  | wouldBlock
  | ioError
deriving DecidableEq

instance {ε α : Type} [DecidableEq ε] [DecidableEq α] :
    DecidableEq (Except ε α) := fun a b =>
  match a, b with
  | .ok x, .ok y =>
    if h : x = y then .isTrue (by rw [h]) else .isFalse (by
      intro hc; cases hc; exact h rfl)
  | .error x, .error y =>
    if h : x = y then .isTrue (by rw [h]) else .isFalse (by
      intro hc; cases hc; exact h rfl)
  | .ok _, .error _ => .isFalse (by intro hc; cases hc)
  | .error _, .ok _ => .isFalse (by intro hc; cases hc)

/-- Outcome of running the ingress loop of `next_event` for a bounded
number of iterations. -/
inductive LoopOutcome where
  | returned (r : Except UpdateError (Option ServerEvent)) (s : Server)
  | running (s : Server)
deriving DecidableEq

/-- The `if let Ok(Some(_)) = result` guard of the ingress loop. -/
def isOkSome : Except UpdateError (Option ServerEvent) → Bool
  | .ok (some _) => true
  | _ => false

/-- The ingress loop of `Server::next_event`, fuel-indexed: iteration `k`
consumes `recvs k`.  A `WouldBlock` receive produces the result `Ok(None)`
and an io error produces `Err(SocketError)`; the loop body exits only via
the `return` guarded by `if let Ok(Some(_)) = result`. -/
def next_event_ingress (env : Env) (recvs : Nat → RecvResult) :
    Nat → Nat → Server → LoopOutcome
  | 0, _, s => .running s
  | fuel + 1, k, s =>
    let step : Server × Except UpdateError (Option ServerEvent) :=
      match recvs k with
      | .ok addr data =>
        let o := handle_io env s addr data
        (o.server, o.result)
      | .wouldBlock => (s, .ok none)
      | .ioError => (s, .error .SocketError)
    if isOkSome step.2 then .returned step.2 step.1
    else next_event_ingress env recvs fuel (k + 1) step.1

/-- The table invariant: no two occupied slots share a `client_id` or a
peer address. -/
def SlotsDistinct (clients : List (Option Connection)) : Prop :=
  ∀ (i j : Nat) (ci cj : Connection),
    clients[i]? = some (some ci) → clients[j]? = some (some cj) →
    i ≠ j → ci.client_id ≠ cj.client_id ∧ ci.addr ≠ cj.addr

/-- A host-driven server operation, as issued by `next_event` and
`update`: one routed datagram, one timer-phase tick, or a time advance. -/
inductive Op where
  | io (env : Env) (addr : Nat) (data : List Nat)
  | tick
  | upd (elapsed : Rat) (block : Rat)

/-- Run one operation, keeping the resulting server state. -/
def run_op (s : Server) : Op → Server
  | .io env addr data => (handle_io env s addr data).server
  | .tick => tick_step s
  | .upd e b => (update s e b).1

/-- Oracle instance for C3: the codec yields a well-versioned
`ConnectionRequest` whose `token_expire` equals the wall clock (100), and
the private data unseals successfully. -/
def c3_env : Env :=
  { decode := fun _ _ _ => some (.ConnectionRequest ⟨0, 7, 100, 0, []⟩)
    private_decode := fun _ _ _ _ _ => some ⟨42, 11, 12, []⟩
    response_decode := fun _ _ => .error ()
    get_time_now := 100 }

/-- Oracle instance for the C3 witness: token expired one second ago. -/
def c3w_env : Env :=
  { decode := fun _ _ _ => some (.ConnectionRequest ⟨0, 7, 5, 0, []⟩)
    private_decode := fun _ _ _ _ _ => some ⟨42, 11, 12, []⟩
    response_decode := fun _ _ => .error ()
    get_time_now := 6 }

/-- Oracle instance for C7: the datagram decodes to a `Response` whose
challenge token fails to unseal. -/
def c7_env : Env :=
  { decode := fun _ _ _ => some (.Response ⟨0, []⟩)
    private_decode := fun _ _ _ _ _ => none
    response_decode := fun _ _ => .error ()
    get_time_now := 0 }

/-- Oracle instance for the C9 witness: a response whose token unseals to
client id 77 with user data `[1, 2]`. -/
def c9_env : Env :=
  { decode := fun _ _ _ => some (.Response ⟨1, []⟩)
    private_decode := fun _ _ _ _ _ => none
    response_decode := fun _ _ => .ok ⟨77, [1, 2]⟩
    get_time_now := 0 }

/-- Oracle instance for the C6 witness: a valid request from client id 99. -/
def c6_env : Env :=
  { decode := fun _ _ _ => some (.ConnectionRequest ⟨0, 7, 10, 0, []⟩)
    private_decode := fun _ _ _ _ _ => some ⟨99, 11, 12, []⟩
    response_decode := fun _ _ => .error ()
    get_time_now := 0 }

/-- A server for the C6 witness whose single slot is already occupied. -/
def c6_server : Server :=
  { protocol_id := 7, connect_key := 9
    clients := [some ⟨1, .Connected, 21, 22, 50⟩]
    time := 0, send_sequence := 3, challenge_sequence := 4
    challenge_key := 8, client_event_idx := 0 }

/-- Number of occupied slots holding a given `client_id`. -/
def count_with_id (clients : List (Option Connection)) (id : Nat) : Nat :=
  clients.countP (fun v => match v with
    | some c => c.client_id == id
    | none => false)

/-- Oracle instance for the C8 witness: a valid request whose private data
unseals to the already-pending client id 42. -/
def c8_env : Env :=
  { decode := fun _ _ _ => some (.ConnectionRequest ⟨0, 7, 10, 0, []⟩)
    private_decode := fun _ _ _ _ _ => some ⟨42, 11, 12, [5]⟩
    response_decode := fun _ _ => .error ()
    get_time_now := 0 }

/-- Server for the C8 witness: client 42 already pending in slot 0. -/
def c8_server : Server :=
  { protocol_id := 7, connect_key := 9
    clients := [some ⟨42, .PendingResponse ⟨0, 0, 0⟩, 21, 22, 50⟩]
    time := 0, send_sequence := 3, challenge_sequence := 4
    challenge_key := 8, client_event_idx := 0 }

/-- An outbound send operation of the server core: `send_packet` to a
client id, or `send_denied_packet` to an address. -/
inductive SendCall where
  | toClient (client_id : Nat) (p : Packet)
  | denied (addr : Nat) (key : Nat)

/-- Execute one send call: the new server state and the packets actually
handed to the socket (a failed `send_packet` emits nothing but still
consumed a sequence number). -/
def run_send (s : Server) : SendCall → Server × List SentPacket
  | .toClient cid p =>
    let r := send_packet s cid p
    (r.1, match r.2 with | .ok pkt => [pkt] | .error _ => [])
  | .denied addr key =>
    let r := send_denied_packet s addr key
    (r.1, [r.2])

/-- Execute a list of send calls, concatenating the emitted packets. -/
def run_sends (s : Server) : List SendCall → Server × List SentPacket
  | [] => (s, [])
  | c :: cs =>
    let r := run_send s c
    let rest := run_sends r.1 cs
    (rest.1, r.2 ++ rest.2)

/-! ### Helper lemmas about `position`, `List.set` and the client table -/

theorem position_none_forall {α : Type} {p : α → Bool} :
    ∀ (l : List α), position p l = none →
      ∀ (i : Nat) (x : α), l[i]? = some x → p x = false := by
  intro l
  induction l with
  | nil => intro _ i x hx; simp at hx
  | cons y ys ih =>
    intro h i x hx
    rw [position] at h
    by_cases hy : p y
    · rw [if_pos hy] at h; exact absurd h (by simp)
    · rw [if_neg hy] at h
      have hys : position p ys = none := by
        cases hpos : position p ys with
        | none => rfl
        | some k => rw [hpos] at h; simp at h
      cases i with
      | zero =>
        rw [List.getElem?_cons_zero, Option.some_inj] at hx
        subst hx
        simpa using hy
      | succ n =>
        exact ih hys n x (by simpa using hx)

theorem position_some_spec {α : Type} {p : α → Bool} :
    ∀ (l : List α) (k : Nat), position p l = some k →
      ∃ x, l[k]? = some x ∧ p x = true := by
  intro l
  induction l with
  | nil => intro k h; rw [position] at h; exact absurd h (by simp)
  | cons y ys ih =>
    intro k h
    rw [position] at h
    by_cases hy : p y
    · rw [if_pos hy, Option.some_inj] at h
      subst h
      exact ⟨y, by simp, hy⟩
    · rw [if_neg hy] at h
      cases hpos : position p ys with
      | none => rw [hpos] at h; simp at h
      | some m =>
        rw [hpos] at h
        simp only [Option.map_some'] at h
        obtain rfl : m + 1 = k := Option.some_inj.mp h
        obtain ⟨x, hx, hpx⟩ := ih m hpos
        exact ⟨x, by simpa using hx, hpx⟩

theorem position_set_congr {α : Type} {p : α → Bool} :
    ∀ (l : List α) (i : Nat) (a b : α), l[i]? = some b → p a = p b →
      position p (l.set i a) = position p l := by
  intro l
  induction l with
  | nil => intro i a b hb _; simp at hb
  | cons y ys ih =>
    intro i a b hb hpab
    cases i with
    | zero =>
      rw [List.getElem?_cons_zero, Option.some_inj] at hb
      subst hb
      rw [List.set_cons_zero, position, position, hpab]
    | succ n =>
      rw [List.set_cons_succ, position, position,
        ih n a b (by simpa using hb) hpab]

theorem countP_set_congr {α : Type} {p : α → Bool} :
    ∀ (l : List α) (i : Nat) (a b : α), l[i]? = some b → p a = p b →
      (l.set i a).countP p = l.countP p := by
  intro l
  induction l with
  | nil => intro i a b hb _; simp at hb
  | cons y ys ih =>
    intro i a b hb hpab
    cases i with
    | zero =>
      rw [List.getElem?_cons_zero, Option.some_inj] at hb
      subst hb
      rw [List.set_cons_zero, List.countP_cons, List.countP_cons, hpab]
    | succ n =>
      rw [List.set_cons_succ, List.countP_cons, List.countP_cons,
        ih n a b (by simpa using hb) hpab]

theorem slotsDistinct_replicate_none (n : Nat) :
    SlotsDistinct (List.replicate n none) := by
  intro i j ci cj hi _ _
  rw [List.getElem?_replicate] at hi
  split at hi <;> simp at hi

theorem SlotsDistinct.set_none {l : List (Option Connection)}
    (h : SlotsDistinct l) (k : Nat) : SlotsDistinct (l.set k none) := by
  intro i j ci cj hi hj hij
  rw [List.getElem?_set] at hi hj
  split at hi
  · split at hi <;> simp at hi
  · split at hj
    · split at hj <;> simp at hj
    · exact h i j ci cj hi hj hij

theorem SlotsDistinct.set_fresh {l : List (Option Connection)}
    (h : SlotsDistinct l) {k : Nat} {d : Connection}
    (hfresh : ∀ (j : Nat) (c : Connection), l[j]? = some (some c) →
      c.client_id ≠ d.client_id ∧ c.addr ≠ d.addr) :
    SlotsDistinct (l.set k (some d)) := by
  intro i j ci cj hi hj hij
  rw [List.getElem?_set] at hi hj
  by_cases hki : k = i <;> by_cases hkj : k = j
  · exact absurd (hki ▸ hkj) hij
  · rw [if_pos hki] at hi
    rw [if_neg hkj] at hj
    split at hi
    · rw [Option.some_inj, Option.some_inj] at hi
      subst hi
      obtain ⟨h1, h2⟩ := hfresh j cj hj
      exact ⟨fun he => h1 he.symm, fun he => h2 he.symm⟩
    · simp at hi
  · rw [if_neg hki] at hi
    rw [if_pos hkj] at hj
    split at hj
    · rw [Option.some_inj, Option.some_inj] at hj
      subst hj
      obtain ⟨h1, h2⟩ := hfresh i ci hi
      exact ⟨h1, h2⟩
    · simp at hj
  · rw [if_neg hki] at hi
    rw [if_neg hkj] at hj
    exact h i j ci cj hi hj hij

theorem SlotsDistinct.set_same {l : List (Option Connection)}
    (h : SlotsDistinct l) {k : Nat} {c c' : Connection}
    (hk : l[k]? = some (some c)) (hid : c'.client_id = c.client_id)
    (haddr : c'.addr = c.addr) : SlotsDistinct (l.set k (some c')) := by
  intro i j ci cj hi hj hij
  rw [List.getElem?_set] at hi hj
  by_cases hki : k = i <;> by_cases hkj : k = j
  · exact absurd (hki ▸ hkj) hij
  · rw [if_pos hki] at hi
    rw [if_neg hkj] at hj
    split at hi
    · rw [Option.some_inj, Option.some_inj] at hi
      subst hi
      have := h k j c cj hk hj (hki ▸ hij)
      rw [hid, haddr]
      exact this
    · simp at hi
  · rw [if_neg hki] at hi
    rw [if_pos hkj] at hj
    split at hj
    · rw [Option.some_inj, Option.some_inj] at hj
      subst hj
      have := h i k ci c hi hk (fun he => hij (he.trans hkj))
      exact ⟨fun he => this.1 (he.trans hid), fun he => this.2 (he.trans haddr)⟩
    · simp at hj
  · rw [if_neg hki] at hi
    rw [if_neg hkj] at hj
    exact h i j ci cj hi hj hij

theorem find_client_by_id_none {clients : List (Option Connection)} {id : Nat}
    (h : find_client_by_id clients id = none) :
    ∀ (j : Nat) (c : Connection), clients[j]? = some (some c) →
      c.client_id ≠ id := by
  intro j c hc
  have := position_none_forall _ h j _ hc
  simpa using this

theorem find_client_by_addr_none {clients : List (Option Connection)} {addr : Nat}
    (h : find_client_by_addr clients addr = none) :
    ∀ (j : Nat) (c : Connection), clients[j]? = some (some c) →
      c.addr ≠ addr := by
  intro j c hc
  have := position_none_forall _ h j _ hc
  simpa using this

theorem find_client_by_id_some {clients : List (Option Connection)} {id idx : Nat}
    (h : find_client_by_id clients id = some idx) :
    ∃ c, clients[idx]? = some (some c) ∧ c.client_id = id := by
  obtain ⟨x, hx, hp⟩ := position_some_spec _ _ h
  match x, hp with
  | some c, hp => exact ⟨c, hx, by simpa using hp⟩
  | none, hp => simp at hp

theorem handle_packet_conn_id_addr (env : Env) (time : Rat) (pid ck : Nat)
    (client : Connection) (pkt : List Nat) :
    (handle_packet env time pid ck client pkt).conn.client_id = client.client_id ∧
    (handle_packet env time pid ck client pkt).conn.addr = client.addr := by
  unfold handle_packet
  split
  · exact ⟨rfl, rfl⟩
  · split
    · exact ⟨rfl, rfl⟩
    · exact ⟨rfl, rfl⟩

theorem tick_client_conn_id_addr (time : Rat) (client : Connection) :
    (tick_client time client).1.client_id = client.client_id ∧
    (tick_client time client).1.addr = client.addr :=
  ⟨rfl, rfl⟩

theorem send_packet_server (s : Server) (cid : Nat) (p : Packet) :
    (send_packet s cid p).1 =
      { s with send_sequence := (s.send_sequence + 1) % U64 } := by
  unfold send_packet
  dsimp only
  split
  · split <;> rfl
  · rfl

theorem issue_challenge_server (s : Server) (pd : PrivateData) :
    (issue_challenge s pd).server =
      { s with challenge_sequence := (s.challenge_sequence + 1) % U64,
               send_sequence := (s.send_sequence + 1) % U64 } := by
  unfold issue_challenge
  dsimp only
  split <;> rw [send_packet_server]

theorem issue_challenge_clients (s : Server) (pd : PrivateData) :
    (issue_challenge s pd).server.clients = s.clients := by
  rw [issue_challenge_server]

/-! ### The table invariant is preserved by every server operation (C4) -/

theorem handle_client_connect_preserves (env : Env) (s : Server) (addr : Nat)
    (data : List Nat)
    (haddr : find_client_by_addr s.clients addr = none)
    (h : SlotsDistinct s.clients) :
    SlotsDistinct (handle_client_connect env s addr data).server.clients := by
  unfold handle_client_connect
  cases hval : validate_client_token env s.protocol_id s.connect_key data with
  | none => simp only [hval]; exact h
  | some pd =>
    simp only [hval]
    cases hid : find_client_by_id s.clients pd.client_id with
    | some idx =>
      simp only [hid, issue_challenge_clients]
      cases hslot : s.clients[idx]? with
      | none => simp only [hslot]; exact h
      | some oc =>
        cases oc with
        | none => simp only [hslot]; exact h
        | some c =>
          simp only [hslot]
          cases hstate : c.state with
          | PendingResponse rs => simp only [hstate]; exact h.set_same hslot rfl rfl
          | Connected => simp only [hstate]; exact h
          | Idle rs => simp only [hstate]; exact h
          | Disconnected => simp only [hstate]; exact h
          | TimedOut => simp only [hstate]; exact h
    | none =>
      simp only [hid]
      cases hpos : position (fun v => v.isNone) s.clients with
      | some idx =>
        simp only [hpos, issue_challenge_clients]
        apply h.set_fresh
        intro j c hc
        exact ⟨find_client_by_id_none hid j c hc,
               find_client_by_addr_none haddr j c hc⟩
      | none => simp only [hpos]; exact h

theorem handle_io_preserves (env : Env) (s : Server) (addr : Nat)
    (data : List Nat) (h : SlotsDistinct s.clients) :
    SlotsDistinct (handle_io env s addr data).server.clients := by
  unfold handle_io
  cases haddr : find_client_by_addr s.clients addr with
  | none => simp only [haddr]; exact handle_client_connect_preserves env s addr data haddr h
  | some idx =>
    simp only [haddr]
    cases hslot : s.clients[idx]? with
    | none => simp only [hslot]; exact h
    | some oc =>
      cases oc with
      | none => simp only [hslot]; exact h
      | some client =>
        simp only [hslot]
        have hp := handle_packet_conn_id_addr env s.time s.protocol_id
          s.challenge_key client data
        exact h.set_same hslot hp.1 hp.2

theorem tick_step_preserves (s : Server) (h : SlotsDistinct s.clients) :
    SlotsDistinct (tick_step s).clients := by
  unfold tick_step
  split
  · cases hslot : s.clients[s.client_event_idx]? with
    | none => simp only [hslot]; exact h
    | some oc =>
      cases oc with
      | none => simp only [hslot]; exact h
      | some c =>
        simp only [hslot]
        have ht := tick_client_conn_id_addr s.time c
        by_cases hrem : (tick_client s.time c).2.1 = true
        · simp only [hrem, if_true]
          exact h.set_none _
        · simp only [hrem, if_false, Bool.false_eq_true]
          exact h.set_same hslot ht.1 ht.2
  · exact h

theorem run_op_preserves (s : Server) (op : Op) (h : SlotsDistinct s.clients) :
    SlotsDistinct (run_op s op).clients := by
  cases op with
  | io env addr data => exact handle_io_preserves env s addr data h
  | tick => exact tick_step_preserves s h
  | upd e b => exact h

theorem foldl_run_op_preserves (ops : List Op) :
    ∀ s : Server, SlotsDistinct s.clients →
      SlotsDistinct ((ops.foldl run_op s).clients) := by
  induction ops with
  | nil => intro s h; exact h
  | cons op rest ih =>
    intro s h
    exact ih _ (run_op_preserves s op h)

/-! ### Claim theorems -/

/-- C4: for every sequence of datagram-handling operations (`handle_io`,
which dispatches to `handle_client_connect` and `handle_packet`, together
with the per-client `tick_client` steps of the timer phase and `update`)
starting from an empty client table, no two occupied slots share a
`client_id` and no two occupied slots share a peer address. -/
theorem c4_slots_distinct (protocol_id max_clients connect_key challenge_key : Nat)
    (ops : List Op) :
    SlotsDistinct ((ops.foldl run_op
      (Server.new protocol_id max_clients connect_key challenge_key)).clients) :=
  foldl_run_op_preserves ops _ (slotsDistinct_replicate_none max_clients)

/-- C10: `update` always returns `Ok`, advances `time` by exactly
`elapsed`, changes no other server field, and ignores `block_duration`
entirely (in particular the model performs no socket receive or send). -/
theorem c10_update_frame (s : Server) (elapsed block : Rat) :
    (update s elapsed block).2 = .ok () ∧
    (update s elapsed block).1.time = s.time + elapsed ∧
    (update s elapsed block).1.clients = s.clients ∧
    (update s elapsed block).1.send_sequence = s.send_sequence ∧
    (update s elapsed block).1.challenge_sequence = s.challenge_sequence ∧
    (update s elapsed block).1.client_event_idx = s.client_event_idx ∧
    (update s elapsed block).1.protocol_id = s.protocol_id ∧
    (update s elapsed block).1.connect_key = s.connect_key ∧
    (update s elapsed block).1.challenge_key = s.challenge_key ∧
    ∀ block2 : Rat, update s elapsed block = update s elapsed block2 :=
  ⟨rfl, rfl, rfl, rfl, rfl, rfl, rfl, rfl, rfl, fun _ => rfl⟩

/-- C1 (code bug): a slot in `Idle` whose inactivity timeout has elapsed is
moved to `TimedOut` by `tick_client`, but the emitted event is
`ClientDisconnect(0)` — the source shadows the id with `let client_id = 0;`
— rather than `ClientDisconnect` of the connection's actual `client_id`
(`0xFFEEDD` here), which both the specification and the claim mandate. -/
theorem c1_tick_client_emits_zero_id :
    tick_client 6 ⟨0xFFEEDD, .Idle ⟨0, 0, 1⟩, 1, 2, 3⟩ =
      (⟨0xFFEEDD, .TimedOut, 1, 2, 3⟩,
       (false, some (.ok (.ClientDisconnect 0)))) ∧
    (0xFFEEDD : Nat) ≠ 0 := by
  constructor
  · norm_num [tick_client, process_timeout, NETCODE_TIMEOUT_SECONDS]
  · decide

/-- C2 (code bug): the ingress loop of `next_event` exits only through the
`return` guarded by `if let Ok(Some(_)) = result`; a receive that reports
`WouldBlock` yields the result `Ok(None)`, so the loop re-polls the socket
forever.  For every fuel bound the loop is still running and the state is
unchanged: the call never proceeds to the timer phase and never returns,
contradicting the claim that it terminates and falls through to phase 2. -/
theorem c2_ingress_never_returns (env : Env) :
    ∀ (fuel k : Nat) (s : Server),
      next_event_ingress env (fun _ => .wouldBlock) fuel k s = .running s := by
  intro fuel
  induction fuel with
  | zero => intro k s; rfl
  | succ n ih =>
    intro k s
    rw [next_event_ingress]
    exact ih (k + 1) s

/-- C3 (counterexample): at the boundary `token_expire_utc == now_utc()`
(both 100 here) the source rejects only when `now > token_expire`, so
`validate_client_token` accepts the request and `handle_client_connect`
allocates a slot — contradicting the claim that the boundary case is
rejected and produces no slot. -/
theorem c3_counterexample :
    validate_client_token c3_env 7 9 [] = some ⟨42, 11, 12, []⟩ ∧
    (handle_client_connect c3_env (Server.new 7 1 9 8) 5 []).server.clients =
      [some ⟨42, .PendingResponse ⟨0, 0, 0⟩, 11, 12, 5⟩] :=
  ⟨rfl, rfl⟩

/-- C3 (amended): `validate_client_token` rejects (returns `None` for)
every `ConnectionRequest` whose `token_expire_utc` is strictly below
`now_utc()`, and then no slot is touched; at the exact boundary
`token_expire_utc == now_utc()` the expiry check passes. -/
theorem c3_amended_expiry (env : Env) (pid key : Nat) (data : List Nat)
    (req : ConnectionRequestPacket)
    (hdec : env.decode data pid none = some (.ConnectionRequest req))
    (hexp : req.token_expire < env.get_time_now) :
    validate_client_token env pid key data = none := by
  unfold validate_client_token
  simp only [hdec]
  split <;> rfl

theorem c3_amended_expiry_witness :
    c3w_env.decode [] 7 none = some (.ConnectionRequest ⟨0, 7, 5, 0, []⟩) ∧
    (5 : Nat) < c3w_env.get_time_now ∧
    validate_client_token c3w_env 7 9 [] = none :=
  ⟨rfl, by decide, c3_amended_expiry c3w_env 7 9 [] ⟨0, 7, 5, 0, []⟩ rfl (by decide)⟩

/-- C7 (counterexample): a known peer in `PendingResponse` sends a packet
that decodes to a `Response` whose challenge token fails to unseal under
`challenge_key`; the source propagates the failure with `?`, so
`handle_packet` returns an `Err` (`Internal`) and leaves the connection
state unchanged — it neither disconnects nor emits `ClientDisconnect`,
contradicting the claim that decode failures never surface as errors. -/
theorem c7_counterexample :
    (handle_packet c7_env 0 7 8 ⟨5, .PendingResponse ⟨0, 0, 0⟩, 1, 2, 3⟩ [9]).result =
      .error .Internal ∧
    (handle_packet c7_env 0 7 8 ⟨5, .PendingResponse ⟨0, 0, 0⟩, 1, 2, 3⟩ [9]).conn =
      ⟨5, .PendingResponse ⟨0, 0, 0⟩, 1, 2, 3⟩ :=
  ⟨rfl, rfl⟩

/-- C7 (amended): failures of the outer packet decode are never surfaced
as errors — the connection moves to `Disconnected` and
`ClientDisconnect(client_id)` is returned — but a `Response` in
`PendingResponse` whose carried challenge token fails to unseal makes
`handle_packet` return `Err(Internal)` with the connection state left
unchanged. -/
theorem c7_amended (env : Env) (time : Rat) (pid ck : Nat)
    (client : Connection) (pkt : List Nat) (hne : pkt.length ≠ 0) :
    (env.decode pkt pid (some client.client_to_server_key) = none →
      handle_packet env time pid ck client pkt =
        ⟨{ client with state := .Disconnected },
         .ok (some (.ClientDisconnect client.client_id)), none⟩) ∧
    (∀ (resp : ResponsePacket) (rs : RetryState) (e : Unit),
      env.decode pkt pid (some client.client_to_server_key) = some (.Response resp) →
      client.state = .PendingResponse rs →
      env.response_decode resp ck = .error e →
      (handle_packet env time pid ck client pkt).result = .error .Internal ∧
      (handle_packet env time pid ck client pkt).conn = client) := by
  constructor
  · intro hdec
    unfold handle_packet
    rw [if_neg hne]
    simp only [hdec]
  · intro resp rs e hdec hstate hun
    have hconn : ({ client with state := .PendingResponse rs } : Connection) = client := by
      rw [← hstate]
    have hmain : handle_packet env time pid ck client pkt =
        ⟨{ client with state := .PendingResponse rs }, .error .Internal, none⟩ := by
      unfold handle_packet
      rw [if_neg hne]
      simp only [hdec, hstate, hun]
    rw [hmain]
    exact ⟨rfl, hconn⟩

theorem c7_amended_witness :
    ([9] : List Nat).length ≠ 0 ∧
    (handle_packet c7_env 0 7 8 ⟨5, .PendingResponse ⟨0, 0, 0⟩, 1, 2, 3⟩ [9]).result =
      .error .Internal :=
  ⟨by decide,
   ((c7_amended c7_env 0 7 8 ⟨5, .PendingResponse ⟨0, 0, 0⟩, 1, 2, 3⟩ [9]
      (by decide)).2 ⟨0, []⟩ ⟨0, 0, 0⟩ () rfl rfl rfl).1⟩

/-- C9: a connection in `PendingResponse` that receives a packet decoding
to a `Response` whose challenge token unseals successfully gets the token
`user_data` copied into the caller buffer, the event
`ClientConnect(token.client_id)`, and transitions to `Idle`. -/
theorem c9_response_accepted (env : Env) (time : Rat) (pid ck : Nat)
    (client : Connection) (pkt : List Nat) (resp : ResponsePacket)
    (rs : RetryState) (token : ChallengeToken)
    (hne : pkt.length ≠ 0)
    (hdec : env.decode pkt pid (some client.client_to_server_key) =
      some (.Response resp))
    (hstate : client.state = .PendingResponse rs)
    (hun : env.response_decode resp ck = .ok token) :
    handle_packet env time pid ck client pkt =
      ⟨{ client with state := .Idle (RetryState.new time) },
       .ok (some (.ClientConnect token.client_id)),
       some token.user_data⟩ := by
  unfold handle_packet
  rw [if_neg hne]
  simp only [hdec, hstate, hun]

theorem c9_response_accepted_witness :
    ([3] : List Nat).length ≠ 0 ∧
    handle_packet c9_env 0 7 8 ⟨5, .PendingResponse ⟨0, 0, 0⟩, 1, 2, 3⟩ [3] =
      ⟨⟨5, .Idle (RetryState.new 0), 1, 2, 3⟩,
       .ok (some (.ClientConnect 77)), some [1, 2]⟩ :=
  ⟨by decide,
   c9_response_accepted c9_env 0 7 8 ⟨5, .PendingResponse ⟨0, 0, 0⟩, 1, 2, 3⟩ [3]
     ⟨1, []⟩ ⟨0, 0, 0⟩ ⟨77, [1, 2]⟩ (by decide) rfl rfl rfl⟩

/-- C6: a valid connect request from a fresh client id while every slot is
occupied sends exactly one `ConnectionDenied` sealed with the requester
`server_to_client_key` under the freshly incremented `send_sequence`,
returns the `ClientSlotFull` event, and leaves the client table (and every
other server field except `send_sequence`) unchanged. -/
theorem c6_slot_full_denied (env : Env) (s : Server) (addr : Nat)
    (data : List Nat) (pd : PrivateData)
    (hval : validate_client_token env s.protocol_id s.connect_key data = some pd)
    (hid : find_client_by_id s.clients pd.client_id = none)
    (hfull : position (fun v => v.isNone) s.clients = none) :
    handle_client_connect env s addr data =
      ⟨{ s with send_sequence := (s.send_sequence + 1) % U64 },
       .ok (some .ClientSlotFull),
       [⟨addr, pd.server_to_client_key, (s.send_sequence + 1) % U64,
         .ConnectionDenied⟩],
       none⟩ := by
  unfold handle_client_connect
  simp only [hval, hid, hfull]
  rfl

theorem c6_slot_full_denied_witness :
    validate_client_token c6_env c6_server.protocol_id c6_server.connect_key [] =
      some ⟨99, 11, 12, []⟩ ∧
    find_client_by_id c6_server.clients 99 = none ∧
    position (fun v => v.isNone) c6_server.clients = none ∧
    handle_client_connect c6_env c6_server 60 [] =
      ⟨{ c6_server with send_sequence := (c6_server.send_sequence + 1) % U64 },
       .ok (some .ClientSlotFull),
       [⟨60, 11, (c6_server.send_sequence + 1) % U64, .ConnectionDenied⟩],
       none⟩ :=
  ⟨rfl, rfl, rfl,
   c6_slot_full_denied c6_env c6_server 60 [] ⟨99, 11, 12, []⟩ rfl rfl rfl⟩

theorem issue_challenge_found (s : Server) (pd : PrivateData) (idx : Nat)
    (c : Connection)
    (hid : find_client_by_id s.clients pd.client_id = some idx)
    (hslot : s.clients[idx]? = some (some c)) :
    issue_challenge s pd =
      ⟨{ s with challenge_sequence := (s.challenge_sequence + 1) % U64,
                send_sequence := (s.send_sequence + 1) % U64 },
       .ok (some (.ClientConnect pd.client_id)),
       [⟨c.addr, c.server_to_client_key, (s.send_sequence + 1) % U64,
         .Challenge (ChallengePacket.generate pd.client_id pd.user_data
           ((s.challenge_sequence + 1) % U64) s.challenge_key)⟩],
       none⟩ := by
  unfold issue_challenge send_packet
  dsimp only
  simp only [hid, hslot]

/-- C8: a valid connect request whose unsealed `client_id` already owns a
slot in `PendingResponse` is treated as a retransmission: the slot keeps
its identity with `retry.last_retry` reset to 0 and `retry.retry_count`
incremented, one challenge packet is resent to that client, and no new
slot is allocated — the number of slots holding that `client_id` is
unchanged, so a replay leaves at most one slot for the client. -/
theorem c8_retransmission (env : Env) (s : Server) (addr : Nat)
    (data : List Nat) (pd : PrivateData) (idx : Nat) (c : Connection)
    (rs : RetryState)
    (hval : validate_client_token env s.protocol_id s.connect_key data = some pd)
    (hid : find_client_by_id s.clients pd.client_id = some idx)
    (hslot : s.clients[idx]? = some (some c))
    (hstate : c.state = .PendingResponse rs) :
    handle_client_connect env s addr data =
      ⟨{ s with
           clients := s.clients.set idx
             (some { c with state := .PendingResponse ⟨rs.last_update, 0, rs.retry_count + 1⟩ }),
           challenge_sequence := (s.challenge_sequence + 1) % U64,
           send_sequence := (s.send_sequence + 1) % U64 },
       .ok (some (.ClientConnect pd.client_id)),
       [⟨c.addr, c.server_to_client_key, (s.send_sequence + 1) % U64,
         .Challenge (ChallengePacket.generate pd.client_id pd.user_data
           ((s.challenge_sequence + 1) % U64) s.challenge_key)⟩],
       none⟩ ∧
    count_with_id (s.clients.set idx
        (some { c with state := .PendingResponse ⟨rs.last_update, 0, rs.retry_count + 1⟩ })) pd.client_id =
      count_with_id s.clients pd.client_id := by
  have hlt : idx < s.clients.length := (List.getElem?_eq_some.mp hslot).1
  have hid2 : find_client_by_id
      (s.clients.set idx (some { c with state := .PendingResponse ⟨rs.last_update, 0, rs.retry_count + 1⟩ })) pd.client_id = some idx := by
    unfold find_client_by_id at hid ⊢
    rw [@position_set_congr (Option Connection)
      (fun v => match v with | some c0 => c0.client_id == pd.client_id | none => false)
      s.clients idx
      (some { c with state := .PendingResponse ⟨rs.last_update, 0, rs.retry_count + 1⟩ })
      (some c) hslot rfl]
    exact hid
  have hslot2 : (s.clients.set idx (some { c with state := .PendingResponse ⟨rs.last_update, 0, rs.retry_count + 1⟩ }))[idx]? =
      some (some { c with state := .PendingResponse ⟨rs.last_update, 0, rs.retry_count + 1⟩ }) :=
    List.getElem?_set_eq_of_lt _ hlt
  constructor
  · unfold handle_client_connect
    simp only [hval, hid, hslot, hstate]
    rw [issue_challenge_found _ pd idx _ hid2 hslot2]
  · unfold count_with_id
    exact @countP_set_congr (Option Connection)
      (fun v => match v with | some c0 => c0.client_id == pd.client_id | none => false)
      s.clients idx
      (some { c with state := .PendingResponse ⟨rs.last_update, 0, rs.retry_count + 1⟩ })
      (some c) hslot rfl

theorem c8_retransmission_witness :
    validate_client_token c8_env c8_server.protocol_id c8_server.connect_key [] =
      some ⟨42, 11, 12, [5]⟩ ∧
    find_client_by_id c8_server.clients 42 = some 0 ∧
    c8_server.clients[0]? = some (some ⟨42, .PendingResponse ⟨0, 0, 0⟩, 21, 22, 50⟩) ∧
    (⟨42, .PendingResponse ⟨0, 0, 0⟩, 21, 22, 50⟩ : Connection).state =
      .PendingResponse ⟨0, 0, 0⟩ ∧
    count_with_id (c8_server.clients.set 0
        (some ⟨42, .PendingResponse ⟨0, 0, 1⟩, 21, 22, 50⟩)) 42 =
      count_with_id c8_server.clients 42 :=
  ⟨rfl, rfl, rfl, rfl,
   (c8_retransmission c8_env c8_server 60 [] ⟨42, 11, 12, [5]⟩ 0
     ⟨42, .PendingResponse ⟨0, 0, 0⟩, 21, 22, 50⟩ ⟨0, 0, 0⟩ rfl rfl rfl rfl).2⟩

theorem send_packet_ok_sequence (s : Server) (cid : Nat) (p : Packet)
    (pkt : SentPacket) (h : (send_packet s cid p).2 = .ok pkt) :
    pkt.sequence = (s.send_sequence + 1) % U64 := by
  unfold send_packet at h
  dsimp only at h
  split at h
  · split at h
    · rw [Except.ok.injEq] at h
      rw [← h]
    · exact Except.noConfusion h
  · exact Except.noConfusion h

theorem run_send_send_sequence (s : Server) (c : SendCall) :
    (run_send s c).1.send_sequence = (s.send_sequence + 1) % U64 := by
  cases c with
  | toClient cid p =>
    show (send_packet s cid p).1.send_sequence = _
    rw [send_packet_server]
  | denied a k => rfl

theorem run_send_emitted (s : Server) (c : SendCall) :
    ∀ pkt ∈ (run_send s c).2, pkt.sequence = (s.send_sequence + 1) % U64 := by
  intro pkt hm
  cases c with
  | toClient cid p =>
    dsimp only [run_send] at hm
    cases hr : (send_packet s cid p).2 with
    | ok q =>
      simp only [hr] at hm
      simp only [List.mem_singleton] at hm
      subst hm
      exact send_packet_ok_sequence s cid p pkt hr
    | error e =>
      simp only [hr] at hm
      simp at hm
  | denied a k =>
    dsimp only [run_send, send_denied_packet] at hm
    simp only [List.mem_singleton] at hm
    subst hm
    rfl

theorem run_send_length (s : Server) (c : SendCall) :
    (run_send s c).2.length ≤ 1 := by
  cases c with
  | toClient cid p =>
    dsimp only [run_send]
    split <;> simp
  | denied a k => exact le_refl 1

theorem pairwise_of_length_le_one {α : Type} {R : α → α → Prop} :
    ∀ (l : List α), l.length ≤ 1 → l.Pairwise R := by
  intro l h
  match l with
  | [] => exact List.Pairwise.nil
  | [a] => exact List.Pairwise.cons (by intro b hb; simp at hb) List.Pairwise.nil
  | a :: b :: t => simp at h

theorem run_sends_bounds (calls : List SendCall) :
    ∀ s : Server, s.send_sequence + calls.length < U64 →
      (run_sends s calls).1.send_sequence = s.send_sequence + calls.length ∧
      ∀ pkt ∈ (run_sends s calls).2,
        s.send_sequence < pkt.sequence ∧
        pkt.sequence ≤ s.send_sequence + calls.length := by
  induction calls with
  | nil =>
    intro s h
    refine ⟨by simp [run_sends], ?_⟩
    intro pkt hm
    simp [run_sends] at hm
  | cons c cs ih =>
    intro s h
    simp only [List.length_cons] at h ⊢
    have h1 : s.send_sequence + 1 < U64 := by omega
    have hs1 : (run_send s c).1.send_sequence = s.send_sequence + 1 := by
      rw [run_send_send_sequence, Nat.mod_eq_of_lt h1]
    have hrec := ih (run_send s c).1 (by rw [hs1]; omega)
    constructor
    · show (run_sends (run_send s c).1 cs).1.send_sequence = _
      rw [hrec.1, hs1]
      omega
    · intro pkt hm
      have hm' : pkt ∈ (run_send s c).2 ++
          (run_sends (run_send s c).1 cs).2 := hm
      rcases List.mem_append.mp hm' with hin | hin
      · have hseq := run_send_emitted s c pkt hin
        rw [Nat.mod_eq_of_lt h1] at hseq
        omega
      · have h2 := hrec.2 pkt hin
        rw [hs1] at h2
        omega

theorem run_sends_pairwise (calls : List SendCall) :
    ∀ s : Server, s.send_sequence + calls.length < U64 →
      ((run_sends s calls).2).Pairwise
        (fun p q => p.sequence ≠ q.sequence) := by
  induction calls with
  | nil => intro s h; simp [run_sends]
  | cons c cs ih =>
    intro s h
    simp only [List.length_cons] at h
    have h1 : s.send_sequence + 1 < U64 := by omega
    have hs1 : (run_send s c).1.send_sequence = s.send_sequence + 1 := by
      rw [run_send_send_sequence, Nat.mod_eq_of_lt h1]
    have hrec := ih (run_send s c).1 (by rw [hs1]; omega)
    have hb := run_sends_bounds cs (run_send s c).1 (by rw [hs1]; omega)
    show ((run_send s c).2 ++
      (run_sends (run_send s c).1 cs).2).Pairwise _
    rw [List.pairwise_append]
    refine ⟨pairwise_of_length_le_one _ (run_send_length s c), hrec, ?_⟩
    intro a ha b hbm
    have ha' := run_send_emitted s c a ha
    rw [Nat.mod_eq_of_lt h1] at ha'
    have hb' := (hb.2 b hbm).1
    rw [hs1] at hb'
    omega

/-- C5 (amended): every outbound encode in `send_packet` and
`send_denied_packet` increments `send_sequence` first — modulo `2 ^ 64`,
the counter being a `u64` — and stamps the incremented value as the
sequence of the encoded packet; every run of sends that does not overflow
the 64-bit counter emits pairwise-distinct sequences.  Unbounded non-reuse
fails because the counter wraps (see the counterexample). -/
theorem c5_amended_sequences (s : Server) (calls : List SendCall)
    (h : s.send_sequence + calls.length < U64) :
    ((run_sends s calls).2).Pairwise (fun p q => p.sequence ≠ q.sequence) ∧
    (∀ (t : Server) (c : SendCall),
      (run_send t c).1.send_sequence = (t.send_sequence + 1) % U64 ∧
      ∀ pkt ∈ (run_send t c).2,
        pkt.sequence = (t.send_sequence + 1) % U64) :=
  ⟨run_sends_pairwise calls s h,
   fun t c => ⟨run_send_send_sequence t c, run_send_emitted t c⟩⟩

theorem c5_amended_sequences_witness :
    (Server.new 7 0 9 8).send_sequence +
      ([.denied 0 0, .denied 1 1] : List SendCall).length < U64 ∧
    ((run_sends (Server.new 7 0 9 8)
        [.denied 0 0, .denied 1 1]).2).Pairwise
      (fun p q => p.sequence ≠ q.sequence) :=
  ⟨by norm_num [Server.new, U64],
   (c5_amended_sequences (Server.new 7 0 9 8) [.denied 0 0, .denied 1 1]
     (by norm_num [Server.new, U64])).1⟩

theorem run_sends_replicate_denied (a k0 : Nat) :
    ∀ (n : Nat) (s : Server) (i : Nat), i < n →
      ((run_sends s (List.replicate n (.denied a k0))).2)[i]? =
        some ⟨a, k0, (s.send_sequence + i + 1) % U64, .ConnectionDenied⟩ := by
  intro n
  induction n with
  | zero => intro s i h; exact absurd h (by omega)
  | succ m ih =>
    intro s i h
    rw [List.replicate_succ]
    show ((run_send s (.denied a k0)).2 ++
      (run_sends (run_send s (.denied a k0)).1
        (List.replicate m (.denied a k0))).2)[i]? = _
    have hr2 : (run_send s (.denied a k0)).2 =
        [⟨a, k0, (s.send_sequence + 1) % U64, .ConnectionDenied⟩] := rfl
    rw [hr2, List.singleton_append]
    cases i with
    | zero => rw [List.getElem?_cons_zero]
    | succ j =>
      rw [List.getElem?_cons_succ]
      rw [ih (run_send s (.denied a k0)).1 j (by omega)]
      have hss : (run_send s (.denied a k0)).1.send_sequence =
          (s.send_sequence + 1) % U64 := rfl
      rw [hss]
      simp only [Option.some_inj, SentPacket.mk.injEq, true_and, and_true]
      calc ((s.send_sequence + 1) % U64 + j + 1) % U64
          = ((s.send_sequence + 1) % U64 + (j + 1)) % U64 := by
            rw [Nat.add_assoc]
        _ = (s.send_sequence + 1 + (j + 1)) % U64 := Nat.mod_add_mod _ _ _
        _ = (s.send_sequence + (j + 1) + 1) % U64 := by congr 1; omega

/-- C5 (counterexample): `send_sequence` is a wrapping `u64`; driving
`send_denied_packet` `2 ^ 64 + 1` times from a fresh server wraps the
counter, and the 1st and the `2 ^ 64 + 1`-st outbound packets (positions 0
and `2 ^ 64` of the emitted trace) both carry sequence 1 — two outbound
framed packets within one server lifetime with the same sequence. -/
theorem c5_counterexample :
    ((run_sends (Server.new 7 0 9 8)
        (List.replicate (U64 + 1) (.denied 0 0))).2)[0]? =
      some ⟨0, 0, 1, .ConnectionDenied⟩ ∧
    ((run_sends (Server.new 7 0 9 8)
        (List.replicate (U64 + 1) (.denied 0 0))).2)[U64]? =
      some ⟨0, 0, 1, .ConnectionDenied⟩ ∧
    (0 : Nat) ≠ U64 := by
  have hz : (Server.new 7 0 9 8).send_sequence = 0 := rfl
  refine ⟨?_, ?_, ?_⟩
  · rw [run_sends_replicate_denied 0 0 (U64 + 1) (Server.new 7 0 9 8) 0
      (by omega), hz]
    norm_num [U64]
  · rw [run_sends_replicate_denied 0 0 (U64 + 1) (Server.new 7 0 9 8) U64
      (by omega), hz]
    have h2 : (0 + U64 + 1) % U64 = 1 := by
      rw [Nat.zero_add, Nat.add_mod_left]
      exact Nat.mod_eq_of_lt (by norm_num [U64])
    rw [h2]
  · have : 0 < U64 := by norm_num [U64]
    omega

end Netcode
